import Mathlib

/-!
Verification of the user-space event-consumption subsystem of
`examples/ringbuffer/main.go`: fixed-layout binary decoding of three kernel
event kinds, the "sipp" process-name filter, per-line formatting, the three
stream-processor read loops, and the orchestrator's acquire/release lifecycle.

Bytes are modelled as `Nat` (< 256 where it matters); raw records are
`List Nat`.  Go's `binary.Read` over a fixed struct succeeds exactly when the
buffer holds at least the struct's size, reading fields in declaration order
with no padding.
-/

/-- Byte order, matching Go's `binary.LittleEndian` / `binary.BigEndian`.
`internal.NativeEndian` is whichever of the two the host uses, so functions
that the source writes with `NativeEndian` take an `Endian` parameter. -/
inductive Endian
  | little
  | big
deriving DecidableEq, Repr

/-- Value of a little-endian byte sequence (least significant byte first). -/
def bytesToNatLE : List Nat → Nat
  | [] => 0
  | b :: bs => b + 256 * bytesToNatLE bs

/-- Value of a big-endian byte sequence (most significant byte first). -/
def bytesToNatBE (bs : List Nat) : Nat :=
  bytesToNatLE bs.reverse

/-- Read a `w`-byte unsigned integer at byte offset `off` of `bs` in byte
order `e`, as Go's `binary.Read` does for one fixed-width field. -/
def readUint (e : Endian) (bs : List Nat) (off w : Nat) : Nat :=
  match e with
  | .little => bytesToNatLE ((bs.drop off).take w)
  | .big => bytesToNatBE ((bs.drop off).take w)

/-- `PutUint32` of Go's `binary.ByteOrder`: the 4-byte encoding of `n` in
byte order `e`. -/
def putUint32 (e : Endian) (n : Nat) : List Nat :=
  match e with
  | .little => [n % 256, n / 256 % 256, n / 65536 % 256, n / 16777216 % 256]
  | .big => [n / 16777216 % 256, n / 65536 % 256, n / 256 % 256, n % 256]

/-- `intToIP` of main.go: allocates a 4-byte IP and fills it with
`internal.NativeEndian.PutUint32(ip, ipNum)`; the host byte order is the
`e` parameter. -/
def intToIP (e : Endian) (ipNum : Nat) : List Nat :=
  putUint32 e ipNum

/-- Message event (`bpfEvent`, bpf2go-generated).  Modelled from the spec:
the generated struct is not in the repository; the spec gives the fields
pid, file descriptor, payload length, fixed-width process-name field and
fixed-width message-body field.  Widths: three 32-bit integers, a 16-byte
comm field and a 64-byte message field. -/
structure BpfEvent where
  pid : Nat
  fd : Nat
  len : Nat
  comm : List Nat
  msg : List Nat
deriving DecidableEq, Repr

/-- Connection-close event (`bpfTcpevent`).  Modelled from the spec:
source/destination IPv4 address (32-bit) and port (16-bit), smoothed RTT
(32-bit, microseconds), 16-byte process-name field. -/
structure BpfTcpevent where
  saddr : Nat
  daddr : Nat
  sport : Nat
  dport : Nat
  srtt : Nat
  comm : List Nat
deriving DecidableEq, Repr

/-- Latency event (`bpfLatdata`).  Modelled from the spec: elapsed
microseconds (64-bit) and a 16-byte process-name field. -/
structure BpfLatdata where
  deltaUs : Nat
  comm : List Nat
deriving DecidableEq, Repr

/-- Size in bytes of the `bpfEvent` wire layout: 4 + 4 + 4 + 16 + 64. -/
def eventSize : Nat := 92

/-- Size in bytes of the `bpfTcpevent` wire layout: 4 + 4 + 2 + 2 + 4 + 16. -/
def tcpeventSize : Nat := 32

/-- Size in bytes of the `bpfLatdata` wire layout: 8 + 16. -/
def latdataSize : Nat := 24

/-- `binary.Read(bytes.NewBuffer(record.RawSample), binary.LittleEndian,
&event)` in `readLoopSipMessages`: fails when the record is shorter than
the struct, otherwise extracts each field at its fixed offset in
little-endian order. -/
def decodeEvent (bs : List Nat) : Option BpfEvent :=
  if bs.length < eventSize then none
  else some
    { pid := readUint .little bs 0 4
      fd := readUint .little bs 4 4
      len := readUint .little bs 8 4
      comm := (bs.drop 12).take 16
      msg := (bs.drop 28).take 64 }

/-- `binary.Read(..., internal.NativeEndian, &tcpevent)` in
`readLoopTcpClose`: host byte order `e`. -/
def decodeTcpevent (e : Endian) (bs : List Nat) : Option BpfTcpevent :=
  if bs.length < tcpeventSize then none
  else some
    { saddr := readUint e bs 0 4
      daddr := readUint e bs 4 4
      sport := readUint e bs 8 2
      dport := readUint e bs 10 2
      srtt := readUint e bs 12 4
      comm := (bs.drop 16).take 16 }

/-- `binary.Read(..., binary.LittleEndian, &event)` in
`readLoopTcpLatency`. -/
def decodeLatdata (bs : List Nat) : Option BpfLatdata :=
  if bs.length < latdataSize then none
  else some
    { deltaUs := readUint .little bs 0 8
      comm := (bs.drop 8).take 16 }

/-- Schema-style decode of a message event under an arbitrary byte order
`e` (the spec's notion "the field values obtained under that kind's byte
order"): same offsets and widths, byte order a parameter. -/
def decodeEventWith (e : Endian) (bs : List Nat) : Option BpfEvent :=
  if bs.length < eventSize then none
  else some
    { pid := readUint e bs 0 4
      fd := readUint e bs 4 4
      len := readUint e bs 8 4
      comm := (bs.drop 12).take 16
      msg := (bs.drop 28).take 64 }

/-- Schema-style decode of a connection-close event under byte order `e`. -/
def decodeTcpeventWith (e : Endian) (bs : List Nat) : Option BpfTcpevent :=
  if bs.length < tcpeventSize then none
  else some
    { saddr := readUint e bs 0 4
      daddr := readUint e bs 4 4
      sport := readUint e bs 8 2
      dport := readUint e bs 10 2
      srtt := readUint e bs 12 4
      comm := (bs.drop 16).take 16 }

/-- Schema-style decode of a latency event under byte order `e`. -/
def decodeLatdataWith (e : Endian) (bs : List Nat) : Option BpfLatdata :=
  if bs.length < latdataSize then none
  else some
    { deltaUs := readUint e bs 0 8
      comm := (bs.drop 8).take 16 }

/-- The 4-byte signature "sipp": bytes 115, 105, 112, 112. -/
def sippSig : List Nat := [115, 105, 112, 112]

/-- The filter condition written in all three read loops:
`Comm[0] == 115 && Comm[1] == 105 && Comm[2] == 112 && Comm[3] == 112`. -/
def isSipp (comm : List Nat) : Bool :=
  comm.getD 0 0 == 115 && comm.getD 1 0 == 105 &&
    comm.getD 2 0 == 112 && comm.getD 3 0 == 112

/-- `unix.ByteSliceToString`: the bytes up to (excluding) the first NUL,
as a string. -/
def byteSliceToString (bs : List Nat) : String :=
  String.mk (((bs.takeWhile fun b => b ≠ 0)).map Char.ofNat)

/-- `net.IP.String()` on a 4-byte IP: dotted-decimal rendering. -/
def ipToString (ip : List Nat) : String :=
  String.intercalate "." (ip.map Nat.repr)

/-- Go's `%-Ns` / `%-Nd`: left-justified padding to width `w` with spaces. -/
def padRight (s : String) (w : Nat) : String :=
  s ++ String.mk (List.replicate (w - s.length) ' ')

/-- The number of hundredths in `us / 1000` rounded to nearest, ties to
even: the rounding `%.2f` applies to the exact value of `us` microseconds
expressed in milliseconds.  (The Go code computes `float64(us)/1000.0`, a
binary float; on inputs with `us % 10 = 0` no rounding happens and the two
pipelines agree exactly.) -/
def centiRound (us : Nat) : Nat :=
  let q := us / 10
  let r := us % 10
  if r < 5 then q else if 5 < r then q + 1 else if q % 2 = 0 then q else q + 1

/-- `%.2f` applied to `float64(us)/1000.0`: integer part, a dot, and
exactly two decimal digits. -/
def fmt2 (us : Nat) : String :=
  let c := centiRound us
  Nat.repr (c / 100) ++ "." ++ Nat.repr (c % 100 / 10) ++ Nat.repr (c % 10)

/-- The spec's wording for the duration field: "the value divided by 1000
formatted with exactly two decimal places" — integer quotient by 1000,
then the first two digits of the remainder as decimals. -/
def render2dp (us : Nat) : String :=
  Nat.repr (us / 1000) ++ "." ++
    Nat.repr (us % 1000 / 100) ++ Nat.repr (us % 1000 / 10 % 10)

/-- The line emitted by `readLoopSipMessages`:
`"pid: %d\tfd: %d\tlen: %d\tcomm: %s\n%s \n\n"`. -/
def formatSipLine (ev : BpfEvent) : String :=
  "pid: " ++ Nat.repr ev.pid ++ "\tfd: " ++ Nat.repr ev.fd ++
    "\tlen: " ++ Nat.repr ev.len ++ "\tcomm: " ++ byteSliceToString ev.comm ++
    "\n" ++ byteSliceToString ev.msg ++ " \n\n"

/-- The line emitted by `readLoopTcpClose`:
`"%-15s %-6d -> %-15s %-6d %.2f %-6s"` on
(intToIP saddr, sport, intToIP daddr, dport, srtt/1000.0, comm). -/
def formatTcpCloseLine (e : Endian) (t : BpfTcpevent) : String :=
  padRight (ipToString (intToIP e t.saddr)) 15 ++ " " ++
    padRight (Nat.repr t.sport) 6 ++ " -> " ++
    padRight (ipToString (intToIP e t.daddr)) 15 ++ " " ++
    padRight (Nat.repr t.dport) 6 ++ " " ++
    fmt2 t.srtt ++ " " ++
    padRight (byteSliceToString t.comm) 6

/-- The line emitted by `readLoopTcpLatency`:
`"Latency: %.2f\tcomm: %s"` on (deltaUs/1000.0, comm). -/
def formatLatLine (l : BpfLatdata) : String :=
  "Latency: " ++ fmt2 l.deltaUs ++ "\tcomm: " ++ byteSliceToString l.comm

/-- Outcome of one read by a ring-buffer reader (`ringbuf.Reader.Read`):
a raw record, the `ringbuf.ErrClosed` error, or any other read error. -/
inductive RingbufRead
  | record (bytes : List Nat)
  | closed
  | readFailed (msg : String)
deriving DecidableEq, Repr

/-- Outcome of one read by the perf reader (`perf.Reader.Read`): a record
carrying a lost-samples count, the `perf.ErrClosed` error, or any other
read error. -/
inductive PerfRead
  | record (lostSamples : Nat) (bytes : List Nat)
  | closed
  | readFailed (msg : String)
deriving DecidableEq, Repr

/-- Observable effect of one loop iteration: event lines emitted, error
diagnostics logged, informational/warning messages logged, and whether the
loop continues (`false` = the function returns, ending the task). -/
structure StepResult where
  outputs : List String
  errorLogs : List String
  infoLogs : List String
  continues : Bool
deriving DecidableEq, Repr

/-- One iteration of `readLoopSipMessages`: on `ErrClosed` log
"Received signal, exiting.." (a status message, not an error) and return;
on another read error log and continue; on a record, decode (log and
continue on failure), filter on the comm bytes, and emit one formatted
line on a match. -/
def sipStep : RingbufRead → StepResult
  | .closed =>
    { outputs := [], errorLogs := [], infoLogs := ["Received signal, exiting.."],
      continues := false }
  | .readFailed m =>
    { outputs := [], errorLogs := ["reading from reader: " ++ m], infoLogs := [],
      continues := true }
  | .record bs =>
    match decodeEvent bs with
    | none =>
      { outputs := [], errorLogs := ["parsing ringbuf event"], infoLogs := [],
        continues := true }
    | some ev =>
      if isSipp ev.comm then
        { outputs := [formatSipLine ev], errorLogs := [], infoLogs := [],
          continues := true }
      else
        { outputs := [], errorLogs := [], infoLogs := [], continues := true }

/-- One iteration of `readLoopTcpClose` (host byte order `e`). -/
def tcpCloseStep (e : Endian) : RingbufRead → StepResult
  | .closed =>
    { outputs := [], errorLogs := [], infoLogs := ["received signal, exiting.."],
      continues := false }
  | .readFailed m =>
    { outputs := [], errorLogs := ["reading from reader: " ++ m], infoLogs := [],
      continues := true }
  | .record bs =>
    match decodeTcpevent e bs with
    | none =>
      { outputs := [], errorLogs := ["parsing ringbuf event"], infoLogs := [],
        continues := true }
    | some t =>
      if isSipp t.comm then
        { outputs := [formatTcpCloseLine e t], errorLogs := [], infoLogs := [],
          continues := true }
      else
        { outputs := [], errorLogs := [], infoLogs := [], continues := true }

/-- The warning logged for a non-zero lost-samples count:
`"perf event ring buffer full, dropped %d samples"`. -/
def lossMsg (lost : Nat) : String :=
  "perf event ring buffer full, dropped " ++ Nat.repr lost ++ " samples"

/-- One iteration of `readLoopTcpLatency`: on `perf.ErrClosed` return
silently; on another read error log and continue; on a record with a
non-zero lost-samples count log the loss and continue without decoding;
otherwise decode, filter, and emit. -/
def latStep : PerfRead → StepResult
  | .closed =>
    { outputs := [], errorLogs := [], infoLogs := [], continues := false }
  | .readFailed m =>
    { outputs := [], errorLogs := ["reading from perf event reader: " ++ m],
      infoLogs := [], continues := true }
  | .record lost bs =>
    if lost ≠ 0 then
      { outputs := [], errorLogs := [], infoLogs := [lossMsg lost],
        continues := true }
    else
      match decodeLatdata bs with
      | none =>
        { outputs := [], errorLogs := ["parsing perf event"], infoLogs := [],
          continues := true }
      | some l =>
        if isSipp l.comm then
          { outputs := [formatLatLine l], errorLogs := [], infoLogs := [],
            continues := true }
        else
          { outputs := [], errorLogs := [], infoLogs := [], continues := true }

/-- The resources `main` acquires, in source order: loaded objects, the
four kprobes on `__sys_recvfrom`, `__sys_sendto`, `tcp_connect`,
`tcp_rcv_state_process`, the tracing link for `TcpClose`, the two
ring-buffer readers and the perf reader. -/
inductive Resource
  | objs
  | kp1
  | kp2
  | kp3
  | kp4
  | tracingLink
  | rd1
  | rd2
  | rd3
deriving DecidableEq, Repr

/-- Outcome of running `main`: whether it aborted via `log.Fatal`, which
resources had been acquired (in acquisition order), and which were
released by the program, in release order. -/
structure MainOutcome where
  fatal : Bool
  acquired : List Resource
  released : List Resource
deriving DecidableEq, Repr

/-- The acquisition sequence of `main` (lines 44-105 of main.go). -/
def acquireSeq : List Resource :=
  [.objs, .kp1, .kp2, .kp3, .kp4, .tracingLink, .rd1, .rd2, .rd3]

/-- Sequential acquisition with Go `defer` semantics.  `acq` is the
reversed list of resources acquired so far, `defers` the defer stack
(each successful acquisition pushes its `Close`).  A failing step calls
`log.Fatal`, which exits the process via `os.Exit`: deferred calls do NOT
run, so nothing is released.  When all steps succeed, `main` blocks on the
stopper channel and, on the termination signal, returns normally: the
defer stack runs last-in-first-out. -/
def runMainGo (fails : Resource → Bool) :
    List Resource → List Resource → List Resource → MainOutcome
  | [], acq, defers =>
    { fatal := false, acquired := acq.reverse, released := defers }
  | r :: rs, acq, defers =>
    if fails r then
      { fatal := true, acquired := acq.reverse, released := [] }
    else
      runMainGo fails rs (r :: acq) (r :: defers)

/-- `main`: `rlimit.RemoveMemlock` first (fatal on failure, nothing yet
acquired), then the acquisition sequence; each step either succeeds and
registers a deferred `Close`, or aborts the process fatally. -/
def runMain (memlockFails : Bool) (fails : Resource → Bool) : MainOutcome :=
  if memlockFails then { fatal := true, acquired := [], released := [] }
  else runMainGo fails acquireSeq [] []

/-- A synthetic 92-byte message-event record whose comm field is "sipp"
(zero-padded): pid = fd = len = 0. -/
def sampleSipBytes : List Nat :=
  List.replicate 12 0 ++ sippSig ++ List.replicate 12 0 ++ List.replicate 64 0

/-- A synthetic message-event record whose comm field is "sippx"
(zero-padded): the filter signature followed by a non-zero byte. -/
def sampleSippxBytes : List Nat :=
  List.replicate 12 0 ++ (sippSig ++ [120]) ++ List.replicate 11 0 ++
    List.replicate 64 0

/-- A synthetic message-event record whose comm field is "curl"
(zero-padded). -/
def sampleCurlBytes : List Nat :=
  List.replicate 12 0 ++ [99, 117, 114, 108] ++ List.replicate 12 0 ++
    List.replicate 64 0

/-- The spec's end-to-end connection-close scenario, laid out for a
little-endian host: source 10.0.0.1:5000, destination 10.0.0.2:5060,
smoothed RTT 2500 µs, comm "sipp".  5000 = 0x1388, 5060 = 0x13C4,
2500 = 0x09C4. -/
def sampleCloseBytes : List Nat :=
  [10, 0, 0, 1] ++ [10, 0, 0, 2] ++ [136, 19] ++ [196, 19] ++
    [196, 9, 0, 0] ++ sippSig ++ List.replicate 12 0

/-- The spec's end-to-end latency scenario for a little-endian host:
elapsed 1500 µs, comm "sipp". -/
def sampleLatBytes : List Nat :=
  [220, 5, 0, 0, 0, 0, 0, 0] ++ sippSig ++ List.replicate 12 0

/-- The event decoded from `sampleSipBytes`. -/
def sampleSipEv : BpfEvent :=
  { pid := 0, fd := 0, len := 0, comm := sippSig ++ List.replicate 12 0,
    msg := List.replicate 64 0 }

/-- The event decoded from `sampleSippxBytes`: its comm field is the
"sipp" signature followed by the byte of "x" and zero padding — not equal
to "sipp" right-padded with zeros. -/
def sampleSippxEv : BpfEvent :=
  { pid := 0, fd := 0, len := 0,
    comm := sippSig ++ (120 :: List.replicate 11 0),
    msg := List.replicate 64 0 }

/-- The event decoded from `sampleCurlBytes`. -/
def sampleCurlEv : BpfEvent :=
  { pid := 0, fd := 0, len := 0, comm := [99, 117, 114, 108] ++ List.replicate 12 0,
    msg := List.replicate 64 0 }

/-- The event decoded from `sampleCloseBytes` on a little-endian host. -/
def sampleCloseEv : BpfTcpevent :=
  { saddr := 16777226, daddr := 33554442, sport := 5000, dport := 5060,
    srtt := 2500, comm := sippSig ++ List.replicate 12 0 }

/-- The event decoded from `sampleLatBytes`. -/
def sampleLatEv : BpfLatdata :=
  { deltaUs := 1500, comm := sippSig ++ List.replicate 12 0 }

/-- A successful message-event decode requires at least `eventSize` bytes
and fixes the comm field to bytes 12..27 of the record. -/
lemma decodeEvent_some_iff {bs : List Nat} {ev : BpfEvent}
    (h : decodeEvent bs = some ev) :
    eventSize ≤ bs.length ∧ ev.comm = (bs.drop 12).take 16 := by
  unfold decodeEvent at h
  split at h
  · cases h
  · rename_i hlt
    cases h
    exact ⟨Nat.le_of_not_lt hlt, rfl⟩

/-- A successful connection-close decode requires at least `tcpeventSize`
bytes and determines every field of the event. -/
lemma decodeTcpevent_some_iff {e : Endian} {bs : List Nat} {t : BpfTcpevent}
    (h : decodeTcpevent e bs = some t) :
    tcpeventSize ≤ bs.length ∧
      t = { saddr := readUint e bs 0 4, daddr := readUint e bs 4 4,
            sport := readUint e bs 8 2, dport := readUint e bs 10 2,
            srtt := readUint e bs 12 4, comm := (bs.drop 16).take 16 } := by
  unfold decodeTcpevent at h
  split at h
  · cases h
  · rename_i hlt
    cases h
    exact ⟨Nat.le_of_not_lt hlt, rfl⟩

/-- A successful latency decode requires at least `latdataSize` bytes and
fixes the comm field to bytes 8..23 of the record. -/
lemma decodeLatdata_some_iff {bs : List Nat} {l : BpfLatdata}
    (h : decodeLatdata bs = some l) :
    latdataSize ≤ bs.length ∧ l.comm = (bs.drop 8).take 16 := by
  unfold decodeLatdata at h
  split at h
  · cases h
  · rename_i hlt
    cases h
    exact ⟨Nat.le_of_not_lt hlt, rfl⟩

/-- On a comm field of at least four bytes, the source's per-byte check is
the same as comparing the first four bytes with the "sipp" signature. -/
lemma isSipp_iff_take4 (comm : List Nat) (h : 4 ≤ comm.length) :
    isSipp comm = true ↔ comm.take 4 = sippSig := by
  rcases comm with _ | ⟨a, _ | ⟨b, _ | ⟨c, _ | ⟨d, rest⟩⟩⟩⟩ <;>
    simp_all [isSipp, sippSig]
  tauto

/-- A comm field that starts with the "sipp" signature passes the filter,
whatever follows. -/
lemma isSipp_append (s : List Nat) : isSipp (sippSig ++ s) = true := rfl

/-- Round trip of `PutUint32` after reading four bytes in the same byte
order: the in-range bytes come back unchanged. -/
lemma putUint32_readUint4 (e : Endian) (a b c d : Nat)
    (ha : a < 256) (hb : b < 256) (hc : c < 256) (hd : d < 256) :
    putUint32 e (readUint e [a, b, c, d] 0 4) = [a, b, c, d] := by
  cases e <;>
    simp [putUint32, readUint, bytesToNatBE, bytesToNatLE] <;>
    refine ⟨?_, ?_, ?_, ?_⟩ <;> omega

/-- Any list of at least eight elements splits into eight heads and a
tail. -/
lemma exists_eight (bs : List Nat) (hl : 8 ≤ bs.length) :
    ∃ a b c d a2 b2 c2 d2 rest,
      bs = a :: b :: c :: d :: a2 :: b2 :: c2 :: d2 :: rest := by
  rcases bs with _ | ⟨a, _ | ⟨b, _ | ⟨c, _ | ⟨d, _ | ⟨a2, _ | ⟨b2, _ | ⟨c2, _ | ⟨d2, rest⟩⟩⟩⟩⟩⟩⟩⟩ <;>
    simp at hl
  exact ⟨a, b, c, d, a2, b2, c2, d2, rest, rfl⟩

/-- C2: decoding endianness is fixed per event kind — the message-event
and latency-event decoders are the schema decode under explicit
little-endian order, the connection-close decoder is the schema decode
under the host's byte order, and the host byte order is material: on the
synthetic close record the big- and little-endian schema decodes disagree
(source port 34835 vs 5000). -/
theorem c2_endianness_fixed_per_kind :
    (∀ bs, decodeEvent bs = decodeEventWith .little bs) ∧
    (∀ bs, decodeLatdata bs = decodeLatdataWith .little bs) ∧
    (∀ e bs, decodeTcpevent e bs = decodeTcpeventWith e bs) ∧
    Option.map BpfTcpevent.sport (decodeTcpeventWith .big sampleCloseBytes) =
      some 34835 ∧
    Option.map BpfTcpevent.sport (decodeTcpeventWith .little sampleCloseBytes) =
      some 5000 :=
  ⟨fun _ => rfl, fun _ => rfl, fun _ _ => rfl, by decide, by decide⟩

/-- C5: a successful perf read with a non-zero loss count is logged as a
loss warning and skipped — no output, no error log, the loop continues —
and the record bytes are never inspected: the step result does not depend
on them. -/
theorem c5_nonzero_loss_skips_record (lost : Nat) (bs bs2 : List Nat)
    (h : lost ≠ 0) :
    latStep (.record lost bs) =
      { outputs := [], errorLogs := [], infoLogs := [lossMsg lost],
        continues := true } ∧
    latStep (.record lost bs) = latStep (.record lost bs2) := by
  simp [latStep, h]

/-- C5 witness: loss count 1 with two different byte records. -/
theorem c5_nonzero_loss_skips_record_witness :
    (1 : Nat) ≠ 0 ∧
    (latStep (.record 1 sampleLatBytes) =
      { outputs := [], errorLogs := [], infoLogs := [lossMsg 1],
        continues := true } ∧
    latStep (.record 1 sampleLatBytes) = latStep (.record 1 [])) :=
  ⟨by decide, c5_nonzero_loss_skips_record 1 sampleLatBytes [] (by decide)⟩

/-- C7: on the termination signal, `main` returns and its defer stack
releases every acquired resource in strict reverse order of acquisition:
perf reader, second ring-buffer reader, first ring-buffer reader, tracing
link, the four kprobes (last attached first), then the loaded
program/maps. -/
theorem c7_release_in_reverse_acquisition_order :
    runMain false (fun _ => false) =
      { fatal := false, acquired := acquireSeq,
        released := [.rd3, .rd2, .rd1, .tracingLink, .kp4, .kp3, .kp2, .kp1,
                     .objs] } ∧
    ([.rd3, .rd2, .rd1, .tracingLink, .kp4, .kp3, .kp2, .kp1, .objs] :
        List Resource) = acquireSeq.reverse :=
  ⟨by decide, by decide⟩

/-- C8: evaluation of the code at the failing input.  When the second
kprobe attachment fails, `log.Fatalf` exits the process via `os.Exit`,
which does NOT run the deferred `Close` calls: the already-acquired
loaded objects and first kprobe are released by nothing — `released` is
empty, contradicting the claim that previously attached probes are still
released before exit. -/
theorem c8_fatal_attach_skips_deferred_release :
    runMain false (fun r => decide (r = Resource.kp2)) =
      { fatal := true, acquired := [.objs, .kp1], released := [] } ∧
    Resource.kp1 ∈ (runMain false (fun r => decide (r = Resource.kp2))).acquired ∧
    (runMain false (fun r => decide (r = Resource.kp2))).released = [] := by
  decide

/-- C4: a record shorter than its kind's fixed layout fails to decode;
the step logs a parse error, emits no output line, and the loop
continues.  Stated for all three kinds (the latency case with loss count
zero, so that decoding is reached). -/
theorem c4_short_record_logged_and_skipped :
    (∀ bs : List Nat, bs.length < eventSize →
      decodeEvent bs = none ∧
      sipStep (.record bs) =
        { outputs := [], errorLogs := ["parsing ringbuf event"],
          infoLogs := [], continues := true }) ∧
    (∀ (e : Endian) (bs : List Nat), bs.length < tcpeventSize →
      decodeTcpevent e bs = none ∧
      tcpCloseStep e (.record bs) =
        { outputs := [], errorLogs := ["parsing ringbuf event"],
          infoLogs := [], continues := true }) ∧
    (∀ bs : List Nat, bs.length < latdataSize →
      decodeLatdata bs = none ∧
      latStep (.record 0 bs) =
        { outputs := [], errorLogs := ["parsing perf event"],
          infoLogs := [], continues := true }) := by
  refine ⟨fun bs h => ?_, fun e bs h => ?_, fun bs h => ?_⟩
  · have hd : decodeEvent bs = none := by simp [decodeEvent, h]
    exact ⟨hd, by simp [sipStep, hd]⟩
  · have hd : decodeTcpevent e bs = none := by simp [decodeTcpevent, h]
    exact ⟨hd, by simp [tcpCloseStep, hd]⟩
  · have hd : decodeLatdata bs = none := by simp [decodeLatdata, h]
    exact ⟨hd, by simp [latStep, hd]⟩

/-- C4 witness: the empty record is shorter than every layout. -/
theorem c4_short_record_logged_and_skipped_witness :
    (([] : List Nat).length < eventSize ∧
      decodeEvent [] = none ∧
      sipStep (.record []) =
        { outputs := [], errorLogs := ["parsing ringbuf event"],
          infoLogs := [], continues := true }) ∧
    (([] : List Nat).length < latdataSize ∧
      decodeLatdata [] = none ∧
      latStep (.record 0 []) =
        { outputs := [], errorLogs := ["parsing perf event"],
          infoLogs := [], continues := true }) :=
  ⟨⟨by decide, c4_short_record_logged_and_skipped.1 [] (by decide)⟩,
   ⟨by decide, c4_short_record_logged_and_skipped.2.2 [] (by decide)⟩⟩

/-- C6: each processor's step stops the loop exactly on the Closed read
result; on Closed nothing is logged as an error (the two ring-buffer
loops print a status message, the perf loop returns silently); any other
read error is logged and the loop continues. -/
theorem c6_loop_ends_only_on_closed :
    (∀ r, (sipStep r).continues = false ↔ r = RingbufRead.closed) ∧
    (∀ e r, (tcpCloseStep e r).continues = false ↔ r = RingbufRead.closed) ∧
    (∀ r, (latStep r).continues = false ↔ r = PerfRead.closed) ∧
    (sipStep .closed).errorLogs = [] ∧
    (∀ e, (tcpCloseStep e .closed).errorLogs = []) ∧
    (latStep .closed).errorLogs = [] ∧
    (∀ m, (sipStep (.readFailed m)).continues = true ∧
      (sipStep (.readFailed m)).errorLogs = ["reading from reader: " ++ m]) := by
  refine ⟨fun r => ?_, fun e r => ?_, fun r => ?_, rfl, fun e => rfl, rfl,
    fun m => ⟨rfl, rfl⟩⟩
  · cases r with
    | record bs =>
      cases h : decodeEvent bs with
      | none => simp [sipStep, h]
      | some ev => by_cases hs : isSipp ev.comm <;> simp [sipStep, h, hs]
    | closed => simp [sipStep]
    | readFailed m => simp [sipStep]
  · cases r with
    | record bs =>
      cases h : decodeTcpevent e bs with
      | none => simp [tcpCloseStep, h]
      | some t => by_cases hs : isSipp t.comm <;> simp [tcpCloseStep, h, hs]
    | closed => simp [tcpCloseStep]
    | readFailed m => simp [tcpCloseStep]
  · cases r with
    | record lost bs =>
      by_cases hl : lost ≠ 0
      · simp [latStep, hl]
      · cases h : decodeLatdata bs with
        | none => simp [latStep, hl, h]
        | some l => by_cases hs : isSipp l.comm <;> simp [latStep, hl, h, hs]
    | closed => simp [latStep]
    | readFailed m => simp [latStep]

/-- C6 witness: the Closed result stops the message loop, and this is
derived from the loop-exit characterisation. -/
theorem c6_loop_ends_only_on_closed_witness :
    (sipStep .closed).continues = false :=
  (c6_loop_ends_only_on_closed.1 RingbufRead.closed).mpr rfl

/-- C1: for every successfully decoded event of any of the three kinds,
exactly one output line is emitted when the process-name field matches
the 4-byte signature "sipp" (bytes 115, 105, 112, 112), and a
non-matching event produces no output line and no other effect (no logs,
loop continues). -/
theorem c1_output_iff_sipp_match :
    (∀ bs ev, decodeEvent bs = some ev →
      (sipStep (.record bs)).outputs.length =
        (if ev.comm.take 4 = sippSig then 1 else 0) ∧
      (ev.comm.take 4 ≠ sippSig →
        sipStep (.record bs) =
          { outputs := [], errorLogs := [], infoLogs := [],
            continues := true })) ∧
    (∀ e bs t, decodeTcpevent e bs = some t →
      (tcpCloseStep e (.record bs)).outputs.length =
        (if t.comm.take 4 = sippSig then 1 else 0) ∧
      (t.comm.take 4 ≠ sippSig →
        tcpCloseStep e (.record bs) =
          { outputs := [], errorLogs := [], infoLogs := [],
            continues := true })) ∧
    (∀ bs l, decodeLatdata bs = some l →
      (latStep (.record 0 bs)).outputs.length =
        (if l.comm.take 4 = sippSig then 1 else 0) ∧
      (l.comm.take 4 ≠ sippSig →
        latStep (.record 0 bs) =
          { outputs := [], errorLogs := [], infoLogs := [],
            continues := true })) := by
  refine ⟨fun bs ev h => ?_, fun e bs t h => ?_, fun bs l h => ?_⟩
  · have hlen : eventSize ≤ bs.length := (decodeEvent_some_iff h).1
    have h4 : 4 ≤ ev.comm.length := by
      rw [(decodeEvent_some_iff h).2]
      simp [eventSize] at hlen
      simp [List.length_take, List.length_drop]
      omega
    by_cases hp : ev.comm.take 4 = sippSig
    · have hs : isSipp ev.comm = true := (isSipp_iff_take4 _ h4).mpr hp
      simp [sipStep, h, hs, hp]
    · have hs : isSipp ev.comm = false := by
        cases hI : isSipp ev.comm
        · rfl
        · exact absurd ((isSipp_iff_take4 _ h4).mp hI) hp
      simp [sipStep, h, hs, hp]
  · have hlen : tcpeventSize ≤ bs.length := (decodeTcpevent_some_iff h).1
    have h4 : 4 ≤ t.comm.length := by
      have hc : t.comm = (bs.drop 16).take 16 := by
        rw [(decodeTcpevent_some_iff h).2]
      rw [hc]
      simp [tcpeventSize] at hlen
      simp [List.length_take, List.length_drop]
      omega
    by_cases hp : t.comm.take 4 = sippSig
    · have hs : isSipp t.comm = true := (isSipp_iff_take4 _ h4).mpr hp
      simp [tcpCloseStep, h, hs, hp]
    · have hs : isSipp t.comm = false := by
        cases hI : isSipp t.comm
        · rfl
        · exact absurd ((isSipp_iff_take4 _ h4).mp hI) hp
      simp [tcpCloseStep, h, hs, hp]
  · have hlen : latdataSize ≤ bs.length := (decodeLatdata_some_iff h).1
    have h4 : 4 ≤ l.comm.length := by
      rw [(decodeLatdata_some_iff h).2]
      simp [latdataSize] at hlen
      simp [List.length_take, List.length_drop]
      omega
    by_cases hp : l.comm.take 4 = sippSig
    · have hs : isSipp l.comm = true := (isSipp_iff_take4 _ h4).mpr hp
      simp [latStep, h, hs, hp]
    · have hs : isSipp l.comm = false := by
        cases hI : isSipp l.comm
        · rfl
        · exact absurd ((isSipp_iff_take4 _ h4).mp hI) hp
      simp [latStep, h, hs, hp]

/-- C1 witness: a matching "sipp" record yields one output line; the
"curl" record yields the silent continue. -/
theorem c1_output_iff_sipp_match_witness :
    (decodeEvent sampleSipBytes = some sampleSipEv ∧
      (sipStep (.record sampleSipBytes)).outputs.length =
        (if sampleSipEv.comm.take 4 = sippSig then 1 else 0)) ∧
    (decodeEvent sampleCurlBytes = some sampleCurlEv ∧
      sampleCurlEv.comm.take 4 ≠ sippSig ∧
      sipStep (.record sampleCurlBytes) =
        { outputs := [], errorLogs := [], infoLogs := [],
          continues := true }) :=
  ⟨⟨by decide,
    (c1_output_iff_sipp_match.1 sampleSipBytes sampleSipEv (by decide)).1⟩,
   ⟨by decide, by decide,
    (c1_output_iff_sipp_match.1 sampleCurlBytes sampleCurlEv (by decide)).2
      (by decide)⟩⟩

/-- C9: the filter inspects only the first four bytes of the fixed-width
process-name field: any decoded event whose comm field is the "sipp"
signature followed by an arbitrary suffix is emitted as one output
line. -/
theorem c9_filter_ignores_comm_suffix :
    (∀ bs ev s, decodeEvent bs = some ev → ev.comm = sippSig ++ s →
      (sipStep (.record bs)).outputs = [formatSipLine ev]) ∧
    (∀ e bs t s, decodeTcpevent e bs = some t → t.comm = sippSig ++ s →
      (tcpCloseStep e (.record bs)).outputs = [formatTcpCloseLine e t]) ∧
    (∀ bs l s, decodeLatdata bs = some l → l.comm = sippSig ++ s →
      (latStep (.record 0 bs)).outputs = [formatLatLine l]) := by
  refine ⟨fun bs ev s h hc => ?_, fun e bs t s h hc => ?_,
    fun bs l s h hc => ?_⟩
  · have hs : isSipp ev.comm = true := by rw [hc]; exact isSipp_append s
    simp [sipStep, h, hs]
  · have hs : isSipp t.comm = true := by rw [hc]; exact isSipp_append s
    simp [tcpCloseStep, h, hs]
  · have hs : isSipp l.comm = true := by rw [hc]; exact isSipp_append s
    simp [latStep, h, hs]

/-- C9 witness: a record whose comm field is "sippx" (zero-padded) — not
"sipp" right-padded with zeros — is still emitted. -/
theorem c9_filter_ignores_comm_suffix_witness :
    decodeEvent sampleSippxBytes = some sampleSippxEv ∧
    sampleSippxEv.comm = sippSig ++ (120 :: List.replicate 11 0) ∧
    sampleSippxEv.comm ≠ sippSig ++ List.replicate 12 0 ∧
    (sipStep (.record sampleSippxBytes)).outputs =
      [formatSipLine sampleSippxEv] :=
  ⟨by decide, by decide, by decide,
   c9_filter_ignores_comm_suffix.1 sampleSippxBytes sampleSippxEv
     (120 :: List.replicate 11 0) (by decide) (by decide)⟩

/-- C3: in every connection-close and latency line the duration field is
`fmt2` of the microsecond value — the value divided by 1000 rendered with
exactly two decimal places (exactly so whenever no rounding beyond two
decimals is needed, i.e. `us % 10 = 0`); in particular 2500 µs renders as
"2.50" and 1500 µs as "1.50". -/
theorem c3_duration_millis_two_decimals :
    (∀ e t, formatTcpCloseLine e t =
      (padRight (ipToString (intToIP e t.saddr)) 15 ++ " " ++
        padRight (Nat.repr t.sport) 6 ++ " -> " ++
        padRight (ipToString (intToIP e t.daddr)) 15 ++ " " ++
        padRight (Nat.repr t.dport) 6 ++ " ") ++
      fmt2 t.srtt ++
      (" " ++ padRight (byteSliceToString t.comm) 6)) ∧
    (∀ l, formatLatLine l =
      "Latency: " ++ fmt2 l.deltaUs ++ ("\tcomm: " ++ byteSliceToString l.comm)) ∧
    (∀ us, us % 10 = 0 → fmt2 us = render2dp us) ∧
    fmt2 2500 = "2.50" ∧ fmt2 1500 = "1.50" := by
  refine ⟨fun e t => ?_, fun l => ?_, fun us h => ?_, by decide, by decide⟩
  · simp [formatTcpCloseLine, String.append_assoc]
  · simp [formatLatLine, String.append_assoc]
  · have h1 : us / 10 / 100 = us / 1000 := by omega
    have h2 : us / 10 % 100 / 10 = us % 1000 / 100 := by omega
    have h3 : us / 10 % 10 = us % 1000 / 10 % 10 := by omega
    simp [fmt2, render2dp, centiRound, h, h1, h2, h3]

/-- C3 witness: 2500 µs is exactly representable in two decimals, the
general rendering law applies to it, and the two end-to-end scenarios
produce the expected lines. -/
theorem c3_duration_millis_two_decimals_witness :
    (2500 : Nat) % 10 = 0 ∧ fmt2 2500 = render2dp 2500 ∧
    (tcpCloseStep .little (.record sampleCloseBytes)).outputs =
      ["10.0.0.1        5000   -> 10.0.0.2        5060   2.50 sipp  "] ∧
    (latStep (.record 0 sampleLatBytes)).outputs =
      ["Latency: 1.50\tcomm: sipp"] :=
  ⟨by decide, c3_duration_millis_two_decimals.2.2.1 2500 (by decide),
   by decide, by decide⟩

/-- C10: `intToIP` is the 4-byte native-endian encoding of its argument,
and composed with the native-endian decode of a connection-close record
it reproduces the raw address bytes exactly: the printed source address
bytes are bytes 0..3 of the record and the destination address bytes are
bytes 4..7, whatever the host byte order. -/
theorem c10_intToIP_reproduces_raw_bytes :
    (∀ e n, intToIP e n = putUint32 e n ∧ (intToIP e n).length = 4) ∧
    (∀ e a b c d, a < 256 → b < 256 → c < 256 → d < 256 →
      intToIP e (readUint e [a, b, c, d] 0 4) = [a, b, c, d]) ∧
    (∀ e bs t, decodeTcpevent e bs = some t → (∀ x ∈ bs, x < 256) →
      intToIP e t.saddr = bs.take 4 ∧
      intToIP e t.daddr = (bs.drop 4).take 4) := by
  refine ⟨fun e n => ⟨rfl, ?_⟩, fun e a b c d ha hb hc hd => ?_,
    fun e bs t h hx => ?_⟩
  · cases e <;> simp [intToIP, putUint32]
  · exact putUint32_readUint4 e a b c d ha hb hc hd
  · obtain ⟨hlen, ht⟩ := decodeTcpevent_some_iff h
    have hlen8 : 8 ≤ bs.length := by simp [tcpeventSize] at hlen; omega
    obtain ⟨a, b, c, d, a2, b2, c2, d2, rest, rfl⟩ := exists_eight bs hlen8
    subst ht
    constructor
    · exact putUint32_readUint4 e a b c d
        (hx a (by simp)) (hx b (by simp)) (hx c (by simp)) (hx d (by simp))
    · exact putUint32_readUint4 e a2 b2 c2 d2
        (hx a2 (by simp)) (hx b2 (by simp)) (hx c2 (by simp)) (hx d2 (by simp))

/-- C10 witness: on the synthetic close record for a little-endian host,
the printed source address bytes are exactly the first four raw bytes
10.0.0.1. -/
theorem c10_intToIP_reproduces_raw_bytes_witness :
    decodeTcpevent .little sampleCloseBytes = some sampleCloseEv ∧
    (∀ x ∈ sampleCloseBytes, x < 256) ∧
    intToIP .little sampleCloseEv.saddr = sampleCloseBytes.take 4 ∧
    intToIP .little sampleCloseEv.saddr = [10, 0, 0, 1] :=
  ⟨by decide, by decide,
   (c10_intToIP_reproduces_raw_bytes.2.2 .little sampleCloseBytes
     sampleCloseEv (by decide) (by decide)).1,
   by decide⟩
